import Mathlib

/-!
Verification of the duplicate-record checker (`duplicate_checker.py`).

Strings are embedded as lists of characters (`Str`), so that Python's
`str.strip`, `str.lower`, `str.split`, slicing and `"sep".join` become
structurally recursive Lean functions.  Missing cells (pandas `NaN`) are
`Option.none`; `str(...)` of a missing cell renders as `"nan"` exactly as
Python's `str(float('nan'))` does.  Timestamps parsed by
`pd.to_datetime(..., errors="coerce")` are modelled by an arbitrary total
parsing function into `Option Int`, `none` standing for `NaT`; the pandas
rule that every comparison against `NaT` is `False` is the explicit
`ltTime` below.  `groupby(...).groups` followed by `.loc` lookups is
modelled by list filtering on the group key, with the pandas behaviour
that `NaN` keys are dropped from groups made explicit in `coordCands`.
-/

/-- A Python string, as its list of characters. -/
abbrev Str := List Char

/-- Python `str.split(",")` (splitting on every comma, keeping empty parts). -/
def splitComma : Str → List Str
  | [] => [[]]
  | c :: rest =>
    if c = ',' then [] :: splitComma rest
    else
      match splitComma rest with
      | [] => [[c]]
      | p :: ps => (c :: p) :: ps

/-- Drop leading whitespace, as Python `lstrip` does. -/
def trimL (s : Str) : Str := s.dropWhile (fun c => c.isWhitespace)

/-- Drop trailing whitespace, as Python `rstrip` does. -/
def trimR (s : Str) : Str := (s.reverse.dropWhile (fun c => c.isWhitespace)).reverse

/-- Python `str.strip()`. -/
def pyTrim (s : Str) : Str := trimR (trimL s)

/-- Python `str.lower()` (ASCII case folding characterwise). -/
def pyLower (s : Str) : Str := s.map Char.toLower

/-- The normalization `str(x).strip().lower()` applied to every address field. -/
def pyNorm (s : Str) : Str := pyLower (pyTrim s)

/-- Python `"sep".join(parts)`. -/
def joinSep (sep : Str) : List Str → Str
  | [] => []
  | [p] => p
  | p :: q :: rest => p ++ (sep ++ joinSep sep (q :: rest))

/-- The `"||"` delimiter used by the key builders. -/
def barSep : Str := ['|', '|']

/-- The `"; "` delimiter used when emitting duplicate id/creator lists. -/
def semiSep : Str := [';', ' ']

/-- `"; ".join` over a list of strings. -/
def joinSemi (l : List Str) : Str := joinSep semiSep l

/-- A cell of the data frame: `none` is pandas `NaN`. -/
abbrev Cell := Option Str

/-- One data-frame row: association list from column name to cell. -/
abbrev Row := List (String × Cell)

/-- A pandas data frame: the column index plus the rows. -/
structure DataFrame where
  cols : List String
  rows : List Row

/-- Row lookup: `none` when the column label is absent from the row. -/
def lookupRow (r : Row) (c : String) : Option Cell :=
  match r.find? (fun p => p.1 == c) with
  | none => none
  | some p => some p.2

/-- `str(row.get(col, ""))`: default empty on a missing label, and
`str(float('nan')) = "nan"` on a `NaN` cell. -/
def getStr (r : Row) (c : String) : Str :=
  match lookupRow r c with
  | none => []
  | some none => "nan".toList
  | some (some s) => s

/-- `row[col]` as a cell, `NaN`-preserving (missing label also yields `NaN`). -/
def cellAt (r : Row) (c : String) : Cell :=
  match lookupRow r c with
  | none => none
  | some v => v

/-- The five land address columns, in the fixed order used by the key. -/
def ADDR_COLS : List String :=
  ["Tỉnh/Thành phố", "Quận/Huyện/Thị xã", "Xã/Phường", "Đường/Phố", "Số nhà"]

/-- The three apartment key columns. -/
def CHUNGCU_COLS : List String :=
  ["Tỉnh/Thành phố", "Dự án/Khu đô thị/Khu phân lô", "Địa chỉ căn hộ/sàn"]

def CREATOR_COL : String := "Người tạo"
def TIME_COL : String := "Thời điểm thu thập thông tin"
def COORD_COL : String := "Tọa độ"
def STATUS_COL : String := "Giai đoạn hiện tại"
def ID_COL : String := "ID"

/-- The per-record list of normalized address fields (before joining). -/
def normFields (r : Row) : List Str :=
  ADDR_COLS.map (fun c => pyNorm (getStr r c))

/-- `build_addr_key`: normalize the 5 address fields and join with `"||"`. -/
def build_addr_key (r : Row) : Str :=
  joinSep barSep (normFields r)

/-- The per-record list of normalized apartment key fields. -/
def normFieldsChungcu (r : Row) : List Str :=
  CHUNGCU_COLS.map (fun c => pyNorm (getStr r c))

/-- `build_chungcu_key`: normalize the 3 apartment fields and join with `"||"`. -/
def build_chungcu_key (r : Row) : Str :=
  joinSep barSep (normFieldsChungcu r)

/-- `normalize_coord`: split on commas into exactly two parts, strip each and
truncate to `maxLen` characters, rejoin with a comma; `none` on `NaN` input or
when the split does not give exactly two parts (the Python tuple unpacking
raises and the `except` returns `None`). -/
def normalize_coord (maxLen : Nat) (value : Cell) : Option Str :=
  match value with
  | none => none
  | some s =>
    match splitComma s with
    | [latRaw, lonRaw] =>
      some ((pyTrim latRaw).take maxLen ++ (',' :: (pyTrim lonRaw).take maxLen))
    | _ => none

/-- `format_address`: the five fields stripped, empties dropped, joined
with an en-dash separator. -/
def format_address (r : Row) : Str :=
  joinSep " – ".toList
    ((["Số nhà", "Đường/Phố", "Xã/Phường", "Quận/Huyện/Thị xã", "Tỉnh/Thành phố"].map
        (fun c => pyTrim (getStr r c))).filter (fun p => !p.isEmpty))

/-- `format_chungcu_info`: the three apartment fields stripped, empties
dropped, joined with an en-dash separator. -/
def format_chungcu_info (r : Row) : Str :=
  joinSep " – ".toList
    ((["Dự án/Khu đô thị/Khu phân lô", "Địa chỉ căn hộ/sàn", "Tỉnh/Thành phố"].map
        (fun c => pyTrim (getStr r c))).filter (fun p => !p.isEmpty))

/-- `sorted(set(...))`: deduplicate, then sort (lexicographic, as Python
sorts strings by code point). -/
def sortDedup (l : List Str) : List Str :=
  List.insertionSort (fun a b => a ≤ b) l.dedup

/-- A prepared row: the derived columns `_prepare` adds. -/
structure PRow where
  raw : Row
  id : Str
  creatorNorm : Str
  addrKey : Str
  coordNorm : Option Str
  timeNorm : Option Int
  status : Cell
deriving DecidableEq

/-- `_prepare`'s per-row derivations: address key, normalized coordinate,
parsed time (`pt` models `pd.to_datetime(..., dayfirst=True, errors="coerce")`),
stripped creator. -/
def prepare (pt : Cell → Option Int) (r : Row) : PRow :=
  { raw := r
    id := getStr r ID_COL
    creatorNorm := pyTrim (getStr r CREATOR_COL)
    addrKey := build_addr_key r
    coordNorm := normalize_coord 8 (cellAt r COORD_COL)
    timeNorm := pt (cellAt r TIME_COL)
    status := cellAt r STATUS_COL }

/-- The pandas comparison `t1 < t2` on parsed times: any comparison that
involves `NaT` (`none`) is `False`. -/
def ltTime : Option Int → Option Int → Bool
  | some a, some b => a < b
  | _, _ => false

/-- The address-rule candidate subset for one subject row: completed rows
with the same address key, strictly earlier parsed time, and (in the
completed-vs-completed mode, `excludeSelf = true`) a different `ID`. -/
def addrCands (excludeSelf : Bool) (ref : List PRow) (row : PRow) : List PRow :=
  ref.filter (fun r =>
    r.addrKey == row.addrKey && ltTime r.timeNorm row.timeNorm &&
      (!excludeSelf || r.id != row.id))

/-- The coordinate-rule candidate subset: `groupby` drops the `NaN` key, so a
subject with an absent normalized coordinate has no candidates; otherwise the
same temporal and self-exclusion filters apply. -/
def coordCands (excludeSelf : Bool) (ref : List PRow) (row : PRow) : List PRow :=
  match row.coordNorm with
  | none => []
  | some k =>
    ref.filter (fun r =>
      r.coordNorm == some k && ltTime r.timeNorm row.timeNorm &&
        (!excludeSelf || r.id != row.id))

def warnLabel : Str := "Cảnh báo trùng".toList
def suspLabel : Str := "Nghi ngờ trùng".toList

/-- Reason text for a same-creator address match, per comparison mode. -/
def msgSame (excludeSelf : Bool) : Str :=
  if excludeSelf then
    "Hoàn thành vs Hoàn thành – Cùng Người tạo và trùng 5 thông tin địa chỉ".toList
  else
    "Phê duyệt vs Hoàn thành – Cùng Người tạo và trùng 5 thông tin địa chỉ".toList

/-- Reason text for a different-creator address match, per comparison mode. -/
def msgDiff (excludeSelf : Bool) : Str :=
  if excludeSelf then
    "Hoàn thành vs Hoàn thành – Khác Người tạo nhưng trùng 5 thông tin địa chỉ".toList
  else
    "Phê duyệt vs Hoàn thành – Khác Người tạo nhưng trùng 5 thông tin địa chỉ".toList

/-- Reason text for a coordinate match, per comparison mode. -/
def msgCoord (excludeSelf : Bool) : Str :=
  if excludeSelf then
    "Hoàn thành vs Hoàn thành – Trùng tọa độ (100% hoặc gần đúng)".toList
  else
    "Phê duyệt vs Hoàn thành – Trùng tọa độ (100% hoặc gần đúng)".toList

/-- The `"Lý do trùng"` cell: `f"{severity_label} – " + " ; ".join(details)`. -/
def mkReason (sev : Str) (details : List Str) : Str :=
  sev ++ (" – ".toList ++ joinSep " ; ".toList details)

/-- One emitted result row (the six output columns). -/
structure ResultRow where
  id : Str
  creator : Str
  reason : Str
  info : Str
  dupIds : Str
  dupCreators : Str
deriving DecidableEq

/-- `_collect_result`: render the output row; coordinate evidence wins over
address evidence; id and creator lists are emitted as `"; ".join(sorted(set))`. -/
def collectResult (row : PRow) (dupIds dupCreators : List Str)
    (hasCoordDup hasAddrDup : Bool) (sevLabel : Str) (details : List Str) :
    ResultRow :=
  { id := row.id
    creator := row.creatorNorm
    reason := mkReason sevLabel details
    info :=
      if hasCoordDup then "Tọa độ: ".toList ++ getStr row.raw COORD_COL
      else if hasAddrDup then "Địa chỉ: ".toList ++ format_address row.raw
      else []
    dupIds := joinSemi (sortDedup dupIds)
    dupCreators := joinSemi (sortDedup dupCreators) }

/-- The final emission step shared by both loops: a result row is appended
exactly when some duplicate id was accumulated. -/
def emitIf (row : PRow) (dupIds dupCreators : List Str)
    (hasCoordDup hasAddrDup : Bool) (sev : Str) (details : List Str) :
    Option ResultRow :=
  if dupIds.isEmpty then none
  else some (collectResult row dupIds dupCreators hasCoordDup hasAddrDup sev details)

/-- The body of both per-subject loops of `check_duplicates`: the address rule
(split by creator, severity `Warning` from the same-creator half, `Suspicion`
from the different-creator half only when nothing stronger is set), then the
coordinate rule (severity `Warning` unconditionally), then emission when any
duplicate id was accumulated. -/
def evalRow (excludeSelf : Bool) (ref : List PRow) (row : PRow) :
    Option ResultRow :=
  let aCands := addrCands excludeSelf ref row
  let sameC := aCands.filter (fun r => r.creatorNorm == row.creatorNorm)
  let diffC := aCands.filter (fun r => r.creatorNorm != row.creatorNorm)
  let hasAddrDup := !aCands.isEmpty
  let sev1 : Option Str :=
    if hasAddrDup && !sameC.isEmpty then some warnLabel else none
  let sev2 : Option Str :=
    if hasAddrDup && !diffC.isEmpty && sev1.isNone then some suspLabel else sev1
  let cCands := coordCands excludeSelf ref row
  let hasCoordDup := !cCands.isEmpty
  let sev3 : Option Str := if hasCoordDup then some warnLabel else sev2
  let dupIds :=
    (if hasAddrDup && !sameC.isEmpty then sameC.map (fun r => r.id) else []) ++
    ((if hasAddrDup && !diffC.isEmpty then diffC.map (fun r => r.id) else []) ++
     (if hasCoordDup then cCands.map (fun r => r.id) else []))
  let dupCreators :=
    (if hasAddrDup && !sameC.isEmpty then sameC.map (fun r => r.creatorNorm) else []) ++
    ((if hasAddrDup && !diffC.isEmpty then diffC.map (fun r => r.creatorNorm) else []) ++
     (if hasCoordDup then cCands.map (fun r => r.creatorNorm) else []))
  let details :=
    (if hasAddrDup && !sameC.isEmpty then [msgSame excludeSelf] else []) ++
    ((if hasAddrDup && !diffC.isEmpty then [msgDiff excludeSelf] else []) ++
     (if hasCoordDup then [msgCoord excludeSelf] else []))
  emitIf row dupIds dupCreators hasCoordDup hasAddrDup (sev3.getD suspLabel) details

/-- The required columns of the land checker. -/
def requiredCols : List String :=
  ADDR_COLS ++ [CREATOR_COL, TIME_COL, COORD_COL, STATUS_COL, ID_COL]

/-- The first required column absent from the data frame, if any (the Python
loop raises on the first one in required order). -/
def findMissing (req : List String) (cols : List String) : Option String :=
  req.find? (fun c => !cols.contains c)

/-- The prepared rows of the data frame. -/
def preparedRows (pt : Cell → Option Int) (df : DataFrame) : List PRow :=
  df.rows.map (prepare pt)

/-- The completed (`"Hoàn thành"`) population. -/
def hoanThanhOf (pt : Cell → Option Int) (df : DataFrame) : List PRow :=
  (preparedRows pt df).filter (fun r => r.status == some "Hoàn thành".toList)

/-- The submitted (`"Phê duyệt"`) population. -/
def pheDuyetOf (pt : Cell → Option Int) (df : DataFrame) : List PRow :=
  (preparedRows pt df).filter (fun r => r.status == some "Phê duyệt".toList)

/-- `check_duplicates`: validate the required columns (raising
`"Thiếu cột: <col>"` before any row processing), prepare, then run the
submitted-vs-completed pass followed by the completed-vs-completed pass. -/
def check_duplicates (pt : Cell → Option Int) (df : DataFrame) :
    Except String (List ResultRow) :=
  match findMissing requiredCols df.cols with
  | some c => .error ("Thiếu cột: " ++ c)
  | none =>
    let hoanThanh := hoanThanhOf pt df
    let pheDuyet := pheDuyetOf pt df
    .ok (pheDuyet.filterMap (evalRow false hoanThanh) ++
         hoanThanh.filterMap (evalRow true hoanThanh))

/-- A prepared apartment row. -/
structure CRow where
  raw : Row
  id : Str
  creatorNorm : Str
  key : Str
deriving DecidableEq

/-- The apartment checker's per-row derivations. -/
def prepareChungcu (r : Row) : CRow :=
  { raw := r
    id := getStr r ID_COL
    creatorNorm := pyTrim (getStr r CREATOR_COL)
    key := build_chungcu_key r }

/-- The blank-key mask: `key.replace("|", "").strip() != ""`. -/
def chungcuValid (r : CRow) : Bool :=
  !(pyTrim (r.key.filter (fun c => c ≠ '|'))).isEmpty

/-- The apartment rows surviving the blank-key mask. -/
def validChungcu (df : DataFrame) : List CRow :=
  (df.rows.map prepareChungcu).filter chungcuValid

/-- Distinct keys in order of first appearance (`groupby(..., sort=False)`). -/
def firstDedup (l : List Str) : List Str :=
  l.foldl (fun acc k => if k ∈ acc then acc else acc ++ [k]) []

def msgCCsame : Str :=
  "Chung cư – Trùng Tỉnh + Dự án/KĐT/Khu phân lô + Địa chỉ căn hộ/sàn (cùng Người tạo)".toList

def msgCCdiff : Str :=
  "Chung cư – Trùng Tỉnh + Dự án/KĐT/Khu phân lô + Địa chỉ căn hộ/sàn (khác Người tạo)".toList

/-- The required columns of the apartment checker. -/
def requiredColsChungcu : List String :=
  CHUNGCU_COLS ++ [CREATOR_COL, ID_COL]

/-- The per-row body of the apartment group loop: every other row of the
group (different `ID`) is a duplicate; severity is `Warning` exactly when a
same-creator other row exists, else `Suspicion`. -/
def chungcuRowResult (groupDf : List CRow) (row : CRow) : Option ResultRow :=
  let others := groupDf.filter (fun r => r.id != row.id)
  if others.isEmpty then none
  else
    let sameC := others.filter (fun r => r.creatorNorm == row.creatorNorm)
    let sev := if !sameC.isEmpty then warnLabel else suspLabel
    let reason := if !sameC.isEmpty then msgCCsame else msgCCdiff
    some
      { id := row.id
        creator := row.creatorNorm
        reason := sev ++ (" – ".toList ++ reason)
        info := "Chung cư: ".toList ++ format_chungcu_info row.raw
        dupIds := joinSemi (sortDedup (others.map (fun r => r.id)))
        dupCreators := joinSemi (sortDedup (others.map (fun r => r.creatorNorm))) }

/-- `check_duplicates_chungcu`: validate columns, drop all-blank keys, group
by the 3-field key, and flag every member of each group of size at least two
against the other members. -/
def check_duplicates_chungcu (df : DataFrame) : Except String (List ResultRow) :=
  match findMissing requiredColsChungcu df.cols with
  | some c => .error ("Thiếu cột: " ++ c)
  | none =>
    let valid := validChungcu df
    let keys := firstDedup (valid.map (fun r => r.key))
    .ok (keys.flatMap (fun k =>
      let g := valid.filter (fun r => r.key == k)
      if g.length ≤ 1 then [] else g.filterMap (chungcuRowResult g)))

/-! ## Concrete example data -/

/-- A concrete stand-in for `pd.to_datetime(..., dayfirst=True, errors="coerce")`:
parses the two date literals used by the example data and coerces everything
else (including `NaN`) to `NaT`. -/
def pt0 : Cell → Option Int := fun c =>
  match c with
  | some s =>
    if s = "d1".toList then some 1 else if s = "d2".toList then some 2 else none
  | none => none

/-- A land row: id, stage, creator, raw time, raw coordinate, province
(the remaining four address fields are shared constants). -/
def mkLandRow (id stat creator time coord prov : String) : Row :=
  [(ID_COL, some id.toList), (STATUS_COL, some stat.toList),
   (CREATOR_COL, some creator.toList), (TIME_COL, some time.toList),
   (COORD_COL, some coord.toList), ("Tỉnh/Thành phố", some prov.toList),
   ("Quận/Huyện/Thị xã", some "q".toList), ("Xã/Phường", some "x".toList),
   ("Đường/Phố", some "d".toList), ("Số nhà", some "5".toList)]

/-- Completed reference record, parseable time `d1`. -/
def rowRefC1 : Row := mkLandRow "R1" "Hoàn thành" "A" "d1" "1,2" "p"

/-- Submitted subject record with an unparseable time and the same coordinate. -/
def rowSubC1 : Row := mkLandRow "S1" "Phê duyệt" "B" "zz" "1,2" "p"

/-- Data set for the absent-subject-time scenario. -/
def dfC1 : DataFrame := { cols := requiredCols, rows := [rowRefC1, rowSubC1] }

/-- Completed reference record at time `d1`. -/
def rowRefC2 : Row := mkLandRow "R1" "Hoàn thành" "A" "d1" "1,2" "p"

/-- Submitted subject at the later time `d2`, same coordinate and address,
different creator. -/
def rowSubC2 : Row := mkLandRow "S1" "Phê duyệt" "B" "d2" "1,2" "p"

/-- Data set where the subject matches by both keys with a different creator. -/
def dfC2 : DataFrame := { cols := requiredCols, rows := [rowRefC2, rowSubC2] }

/-- Address row whose province field ends with a bar character. -/
def rowCE1 : Row :=
  [("Tỉnh/Thành phố", some "a|".toList), ("Quận/Huyện/Thị xã", some "b".toList)]

/-- Address row with the bar character at the start of the district field. -/
def rowCE2 : Row :=
  [("Tỉnh/Thành phố", some "a".toList), ("Quận/Huyện/Thị xã", some "|b".toList)]

/-- An apartment row: id, creator, province, project, unit address. -/
def mkAptRow (id creator prov proj addr : String) : Row :=
  [(ID_COL, some id.toList), (CREATOR_COL, some creator.toList),
   ("Tỉnh/Thành phố", some prov.toList),
   ("Dự án/Khu đô thị/Khu phân lô", some proj.toList),
   ("Địa chỉ căn hộ/sàn", some addr.toList)]

def aptX1 : Row := mkAptRow "X1" "A" "p" "pr" "u1"
def aptX2 : Row := mkAptRow "X2" "B" "p" "pr" "u1"
def aptX3 : Row := mkAptRow "X3" "A" "p" "pr" "u1"

/-- An apartment row whose three key fields are all blank after trimming. -/
def aptBlank : Row := mkAptRow "B1" "C" "" " " ""

/-- Apartment data set: one key group of three plus one all-blank-key row. -/
def dfC9 : DataFrame :=
  { cols := requiredColsChungcu, rows := [aptX1, aptX2, aptX3, aptBlank] }

/-- A data set missing most required columns. -/
def dfMissing : DataFrame := { cols := [ID_COL], rows := [] }

/-- Extract the row list of a successful run (empty on an error). -/
def okRows (e : Except String (List ResultRow)) : List ResultRow :=
  match e with
  | .ok l => l
  | .error _ => []

/-- The rows emitted on `dfC2`. -/
def rowsC2 : List ResultRow := okRows (check_duplicates pt0 dfC2)

instance : Inhabited ResultRow :=
  ⟨{ id := [], creator := [], reason := [], info := [], dupIds := [], dupCreators := [] }⟩

/-- The (single) row emitted on `dfC2`. -/
def resC2 : ResultRow := rowsC2.headI

/-- The rows emitted on the apartment data set `dfC9`. -/
def rowsC9 : List ResultRow := okRows (check_duplicates_chungcu dfC9)

/-- Both comma-separated parts of a rendered coordinate are unchanged by a
further strip (truncation to 8 characters can leave a trailing space, which
breaks this). -/
def coordTrimStable (w : Str) : Bool :=
  (splitComma w).all (fun p => pyTrim p == p)

/-! ## Helper lemmas -/

theorem charTable : ∀ k : Fin 26,
    ((Char.ofNat (65 + k.val)).toLower).isWhitespace = false ∧
    (Char.ofNat (65 + k.val)).isWhitespace = false ∧
    Char.toLower ((Char.ofNat (65 + k.val)).toLower) =
      (Char.ofNat (65 + k.val)).toLower := by decide

theorem ofNat_sub_cancel {c : Char} (h : 65 ≤ c.toNat) :
    Char.ofNat (65 + (c.toNat - 65)) = c := by
  rw [show 65 + (c.toNat - 65) = c.toNat from by omega, Char.ofNat_toNat]

theorem toLower_eq_self {c : Char} (h : ¬(c.toNat ≥ 65 ∧ c.toNat ≤ 90)) :
    c.toLower = c := by
  unfold Char.toLower
  exact if_neg h

theorem toLower_isWhitespace (c : Char) :
    (c.toLower).isWhitespace = c.isWhitespace := by
  by_cases h : c.toNat ≥ 65 ∧ c.toNat ≤ 90
  · have hk := charTable ⟨c.toNat - 65, by omega⟩
    rw [ofNat_sub_cancel h.1] at hk
    rw [hk.1, hk.2.1]
  · rw [toLower_eq_self h]

theorem toLower_toLower (c : Char) : c.toLower.toLower = c.toLower := by
  by_cases h : c.toNat ≥ 65 ∧ c.toNat ≤ 90
  · have hk := charTable ⟨c.toNat - 65, by omega⟩
    rw [ofNat_sub_cancel h.1] at hk
    exact hk.2.2
  · rw [toLower_eq_self h, toLower_eq_self h]

theorem dropWhile_dropWhile (p : Char → Bool) (l : Str) :
    (l.dropWhile p).dropWhile p = l.dropWhile p := by
  induction l with
  | nil => rfl
  | cons a t ih =>
    by_cases h : p a
    · rw [List.dropWhile_cons_of_pos h]; exact ih
    · rw [List.dropWhile_cons_of_neg h, List.dropWhile_cons_of_neg h]

theorem trimL_trimL (s : Str) : trimL (trimL s) = trimL s :=
  dropWhile_dropWhile _ s

theorem trimR_trimR (s : Str) : trimR (trimR s) = trimR s := by
  simp only [trimR, List.reverse_reverse]
  rw [dropWhile_dropWhile]

theorem trimR_front (s : Str) : trimR s <+: s := by
  have h := List.reverse_prefix.mpr
    (List.dropWhile_suffix (l := s.reverse) (fun c => c.isWhitespace))
  simpa [trimR] using h

theorem trimL_of_front {y z : Str} (hy : trimL y = y) (hz : z <+: y) :
    trimL z = z := by
  cases z with
  | nil => rfl
  | cons c t =>
    obtain ⟨w, hw⟩ := hz
    by_cases h : c.isWhitespace
    · exfalso
      rw [← hw] at hy
      rw [show trimL (c :: t ++ w) = trimL (t ++ w) from
            List.dropWhile_cons_of_pos h] at hy
      have hle : (trimL (t ++ w)).length ≤ (t ++ w).length :=
        (List.dropWhile_suffix _).length_le
      rw [hy] at hle
      simp at hle
    · exact List.dropWhile_cons_of_neg h

theorem pyTrim_pyTrim (s : Str) : pyTrim (pyTrim s) = pyTrim s := by
  unfold pyTrim
  rw [trimL_of_front (trimL_trimL s) (trimR_front (trimL s)), trimR_trimR]

theorem dropWhile_ws_map_toLower (l : Str) :
    (l.map Char.toLower).dropWhile (fun c => c.isWhitespace) =
      (l.dropWhile (fun c => c.isWhitespace)).map Char.toLower := by
  rw [List.dropWhile_map]
  have h : ((fun c => c.isWhitespace) ∘ Char.toLower) =
      (fun c : Char => c.isWhitespace) :=
    funext (fun c => toLower_isWhitespace c)
  rw [h]

theorem trimL_pyLower (s : Str) : trimL (pyLower s) = pyLower (trimL s) :=
  dropWhile_ws_map_toLower s

theorem trimR_pyLower (s : Str) : trimR (pyLower s) = pyLower (trimR s) := by
  simp only [trimR, pyLower, ← List.map_reverse]
  rw [dropWhile_ws_map_toLower, List.map_reverse]

theorem pyTrim_pyLower (s : Str) : pyTrim (pyLower s) = pyLower (pyTrim s) := by
  unfold pyTrim
  rw [trimL_pyLower, trimR_pyLower]

theorem pyLower_pyLower (s : Str) : pyLower (pyLower s) = pyLower s := by
  simp only [pyLower, List.map_map]
  exact List.map_congr_left (fun c _ => toLower_toLower c)

theorem pyNorm_pyNorm (s : Str) : pyNorm (pyNorm s) = pyNorm s := by
  simp only [pyNorm]
  rw [pyTrim_pyLower, pyLower_pyLower, pyTrim_pyTrim]

theorem splitComma_ne_nil (s : Str) : splitComma s ≠ [] := by
  cases s with
  | nil => simp [splitComma]
  | cons c rest =>
    simp only [splitComma]
    by_cases h : c = ','
    · simp [h]
    · simp only [if_neg h]
      cases splitComma rest <;> simp

theorem comma_not_mem_splitComma :
    ∀ (s p : Str), p ∈ splitComma s → ',' ∉ p := by
  intro s
  induction s with
  | nil =>
    intro p hp
    simp [splitComma] at hp
    simp [hp]
  | cons c rest ih =>
    intro p hp
    by_cases h : c = ','
    · rw [show splitComma (c :: rest) = [] :: splitComma rest from by
          simp [splitComma, h]] at hp
      rcases List.mem_cons.mp hp with h1 | h1
      · simp [h1]
      · exact ih p h1
    · rw [show splitComma (c :: rest) =
            (match splitComma rest with
             | [] => [[c]]
             | p :: ps => (c :: p) :: ps) from by simp [splitComma, h]] at hp
      rcases h2 : splitComma rest with _ | ⟨q, qs⟩
      · rw [h2] at hp
        simp at hp
        intro hc
        rw [hp] at hc
        simp at hc
        exact h hc.symm
      · rw [h2] at hp
        rcases List.mem_cons.mp hp with h1 | h1
        · intro hc
          rw [h1] at hc
          rcases List.mem_cons.mp hc with h3 | h3
          · exact h h3.symm
          · exact ih q (h2 ▸ List.mem_cons_self q qs) h3
        · exact ih p (h2 ▸ List.mem_cons_of_mem q h1)

theorem splitComma_no_comma {s : Str} (h : ',' ∉ s) : splitComma s = [s] := by
  induction s with
  | nil => rfl
  | cons c rest ih =>
    have hc : ¬ c = ',' := fun hh => h (hh ▸ List.mem_cons_self c rest)
    have hr : ',' ∉ rest := fun hh => h (List.mem_cons_of_mem c hh)
    simp only [splitComma, if_neg hc, ih hr]

theorem splitComma_append {a : Str} (b : Str) (h : ',' ∉ a) :
    splitComma (a ++ ',' :: b) = a :: splitComma b := by
  induction a with
  | nil => simp [splitComma]
  | cons c a' ih =>
    have hc : ¬ c = ',' := fun hh => h (hh ▸ List.mem_cons_self c a')
    have ha' : ',' ∉ a' := fun hh => h (List.mem_cons_of_mem c hh)
    simp only [List.cons_append, splitComma, if_neg hc, List.append_eq, ih ha']

theorem mem_pyTrim {c : Char} {s : Str} (h : c ∈ pyTrim s) : c ∈ s := by
  have h1 : pyTrim s <+: trimL s := trimR_front (trimL s)
  have h2 : c ∈ trimL s := h1.sublist.mem h
  have h3 : trimL s <:+ s := List.dropWhile_suffix _
  exact h3.sublist.mem h2

theorem mem_take {c : Char} {n : Nat} {s : Str} (h : c ∈ s.take n) : c ∈ s :=
  (List.take_sublist n s).mem h

theorem append_barSep_inj :
    ∀ (a : Str) (b x y : Str), '|' ∉ a → '|' ∉ b →
      a ++ ('|' :: '|' :: x) = b ++ ('|' :: '|' :: y) → a = b ∧ x = y := by
  intro a
  induction a with
  | nil =>
    intro b x y _ hb heq
    cases b with
    | nil =>
      simp only [List.nil_append] at heq
      exact ⟨rfl, by injection heq with _ h2; injection h2⟩
    | cons d bs =>
      exfalso
      simp only [List.nil_append, List.cons_append] at heq
      injection heq with h1 _
      exact hb (h1 ▸ List.mem_cons_self d bs)
  | cons c as ih =>
    intro b x y ha hb heq
    cases b with
    | nil =>
      exfalso
      simp only [List.nil_append, List.cons_append] at heq
      injection heq with h1 _
      exact ha (List.mem_cons.mpr (Or.inl h1.symm))
    | cons d bs =>
      simp only [List.cons_append] at heq
      injection heq with h1 h2
      have has : '|' ∉ as := fun hh => ha (List.mem_cons_of_mem c hh)
      have hbs : '|' ∉ bs := fun hh => hb (List.mem_cons_of_mem d hh)
      obtain ⟨e1, e2⟩ := ih bs x y has hbs h2
      exact ⟨by rw [h1, e1], e2⟩

theorem joinSep_barSep_inj :
    ∀ (ps qs : List Str), ps.length = qs.length →
      (∀ p ∈ ps, '|' ∉ p) → (∀ q ∈ qs, '|' ∉ q) →
      joinSep barSep ps = joinSep barSep qs → ps = qs := by
  intro ps
  induction ps with
  | nil =>
    intro qs hlen _ _ _
    cases qs with
    | nil => rfl
    | cons q qt => simp at hlen
  | cons p pt ih =>
    intro qs hlen hp hq heq
    cases qs with
    | nil => simp at hlen
    | cons q qt =>
      cases pt with
      | nil =>
        cases qt with
        | nil => simpa [joinSep] using heq
        | cons q2 qt2 => simp at hlen
      | cons p2 pt2 =>
        cases qt with
        | nil => simp at hlen
        | cons q2 qt2 =>
          have heq' : p ++ ('|' :: '|' :: joinSep barSep (p2 :: pt2)) =
              q ++ ('|' :: '|' :: joinSep barSep (q2 :: qt2)) := heq
          obtain ⟨e1, e2⟩ := append_barSep_inj p q _ _
            (hp p (List.mem_cons_self p _)) (hq q (List.mem_cons_self q _)) heq'
          have : p2 :: pt2 = q2 :: qt2 := by
            refine ih (q2 :: qt2) ?_ ?_ ?_ e2
            · simpa using hlen
            · intro r hr; exact hp r (List.mem_cons_of_mem p hr)
            · intro r hr; exact hq r (List.mem_cons_of_mem q hr)
          rw [e1, this]

theorem sortDedup_sorted (l : List Str) :
    List.Sorted (fun a b : Str => a ≤ b) (sortDedup l) :=
  List.sorted_insertionSort _ _

theorem sortDedup_nodup (l : List Str) : (sortDedup l).Nodup :=
  (List.perm_insertionSort _ l.dedup).symm.nodup (List.nodup_dedup l)

theorem mem_sortDedup {x : Str} {l : List Str} : x ∈ sortDedup l ↔ x ∈ l := by
  unfold sortDedup
  rw [List.mem_insertionSort, List.mem_dedup]

theorem mem_firstDedup_aux (f : List Str → Str → List Str)
    (hf : f = fun acc k => if k ∈ acc then acc else acc ++ [k]) :
    ∀ (l acc : List Str) (x : Str),
      x ∈ l.foldl f acc ↔ x ∈ acc ∨ x ∈ l := by
  intro l
  induction l with
  | nil => intro acc x; simp
  | cons k t ih =>
    intro acc x
    rw [List.foldl_cons, ih]
    by_cases hk : k ∈ acc
    · rw [hf]
      simp only [if_pos hk]
      constructor
      · rintro (h1 | h1)
        · exact Or.inl h1
        · exact Or.inr (List.mem_cons_of_mem k h1)
      · rintro (h1 | h1)
        · exact Or.inl h1
        · rcases List.mem_cons.mp h1 with h2 | h2
          · exact Or.inl (h2 ▸ hk)
          · exact Or.inr h2
    · rw [hf]
      simp only [if_neg hk, List.mem_append, List.mem_singleton, List.mem_cons]
      tauto

theorem mem_firstDedup {x : Str} {l : List Str} :
    x ∈ firstDedup l ↔ x ∈ l := by
  unfold firstDedup
  rw [mem_firstDedup_aux _ rfl]
  simp

theorem ltTime_none_right (t : Option Int) : ltTime t none = false := by
  cases t <;> rfl

theorem findMissing_mem {req cols : List String} {c : String}
    (h : findMissing req cols = some c) : c ∈ req ∧ c ∉ cols := by
  unfold findMissing at h
  refine ⟨List.mem_of_find?_eq_some h, ?_⟩
  have hp := List.find?_some h
  simp only [Bool.not_eq_true'] at hp
  intro hmem
  have he : List.elem c cols = true := List.elem_iff.mpr hmem
  rw [show cols.contains c = List.elem c cols from rfl, he] at hp
  simp at hp

theorem findMissing_isSome {req cols : List String} {col : String}
    (hin : col ∈ req) (hout : col ∉ cols) :
    ∃ c, findMissing req cols = some c := by
  cases h : findMissing req cols with
  | some c => exact ⟨c, rfl⟩
  | none =>
    exfalso
    unfold findMissing at h
    have hc := List.find?_eq_none.mp h col hin
    simp only [Bool.not_eq_true', Bool.not_eq_false] at hc
    rw [show cols.contains col = List.elem col cols from rfl] at hc
    exact hout (List.elem_iff.mp hc)

theorem emitIf_of_ne {row : PRow} {ids crs : List Str} {hc ha : Bool}
    {sev : Str} {det : List Str} (h : ids ≠ []) :
    emitIf row ids crs hc ha sev det = some (collectResult row ids crs hc ha sev det) := by
  unfold emitIf
  rw [if_neg]
  simpa using h

theorem emitIf_some {row : PRow} {ids crs : List Str} {hc ha : Bool}
    {sev : Str} {det : List Str} {res : ResultRow}
    (h : emitIf row ids crs hc ha sev det = some res) :
    res = collectResult row ids crs hc ha sev det := by
  unfold emitIf at h
  split at h
  · cases h
  · injection h with h1
    exact h1.symm

theorem evalRow_coord {ex : Bool} {ref : List PRow} {row : PRow}
    (hc : coordCands ex ref row ≠ []) :
    ∃ res, evalRow ex ref row = some res ∧ res.id = row.id ∧
      res.creator = row.creatorNorm ∧
      ∃ d, res.reason = mkReason warnLabel d := by
  have hcc : (coordCands ex ref row).isEmpty = false := by
    rw [List.isEmpty_eq_false]; exact hc
  unfold evalRow
  simp only [hcc, Bool.not_false, if_true]
  rw [emitIf_of_ne (by
    simp only [ne_eq, List.append_eq_nil, List.map_eq_nil_iff]
    intro hx
    exact hc hx.2.2)]
  refine ⟨_, rfl, rfl, rfl, _, rfl⟩

theorem evalRow_shape {ex : Bool} {ref : List PRow} {row : PRow}
    {res : ResultRow} (h : evalRow ex ref row = some res) :
    ∃ ids crs hc ha sev det, res = collectResult row ids crs hc ha sev det := by
  simp only [evalRow] at h
  exact ⟨_, _, _, _, _, _, emitIf_some h⟩

theorem check_duplicates_ok {pt : Cell → Option Int} {df : DataFrame}
    {rows : List ResultRow} (h : check_duplicates pt df = .ok rows) :
    rows = (pheDuyetOf pt df).filterMap (evalRow false (hoanThanhOf pt df)) ++
           (hoanThanhOf pt df).filterMap (evalRow true (hoanThanhOf pt df)) := by
  unfold check_duplicates at h
  split at h
  · cases h
  · injection h with h1
    exact h1.symm

theorem check_duplicates_chungcu_ok {df : DataFrame} {rows : List ResultRow}
    (h : check_duplicates_chungcu df = .ok rows) :
    rows = (firstDedup ((validChungcu df).map (fun r => r.key))).flatMap
      (fun k =>
        let g := (validChungcu df).filter (fun r => r.key == k)
        if g.length ≤ 1 then [] else g.filterMap (chungcuRowResult g)) := by
  unfold check_duplicates_chungcu at h
  split at h
  · cases h
  · injection h with h1
    exact h1.symm

theorem chungcuRowResult_isSome {g : List CRow} {r : CRow}
    (h : g.filter (fun x => x.id != r.id) ≠ []) :
    ∃ res, chungcuRowResult g r = some res := by
  have hcc : (g.filter (fun x => x.id != r.id)).isEmpty = false := by
    rw [List.isEmpty_eq_false]; exact h
  simp only [chungcuRowResult, hcc]
  exact ⟨_, rfl⟩

theorem chungcuRowResult_some {g : List CRow} {r : CRow} {res : ResultRow}
    (h : chungcuRowResult g r = some res) :
    res.id = r.id ∧ res.creator = r.creatorNorm ∧
    res.dupIds =
      joinSemi (sortDedup ((g.filter (fun x => x.id != r.id)).map (fun x => x.id))) ∧
    res.dupCreators =
      joinSemi (sortDedup
        ((g.filter (fun x => x.id != r.id)).map (fun x => x.creatorNorm))) ∧
    ((g.filter (fun x => x.id != r.id)).filter
        (fun x => x.creatorNorm == r.creatorNorm) ≠ [] →
      res.reason = warnLabel ++ (" – ".toList ++ msgCCsame)) ∧
    ((g.filter (fun x => x.id != r.id)).filter
        (fun x => x.creatorNorm == r.creatorNorm) = [] →
      res.reason = suspLabel ++ (" – ".toList ++ msgCCdiff)) := by
  simp only [chungcuRowResult] at h
  split at h
  · cases h
  · injection h with h1
    subst h1
    refine ⟨rfl, rfl, rfl, rfl, ?_, ?_⟩
    · intro hne
      have hcc : ((g.filter (fun x => x.id != r.id)).filter
          (fun x => x.creatorNorm == r.creatorNorm)).isEmpty = false := by
        rw [List.isEmpty_eq_false]; exact hne
      simp only [hcc, Bool.not_false, if_true]
    · intro heq
      have hcc : ((g.filter (fun x => x.id != r.id)).filter
          (fun x => x.creatorNorm == r.creatorNorm)).isEmpty = true := by
        rw [List.isEmpty_eq_true]; exact heq
      rw [heq]
      simp

theorem two_le_length_of_mem {α : Type} {l : List α} {a b : α}
    (ha : a ∈ l) (hb : b ∈ l) (hne : a ≠ b) : 2 ≤ l.length := by
  cases l with
  | nil => cases ha
  | cons x t =>
    cases t with
    | nil =>
      rcases List.mem_singleton.mp ha with rfl
      rcases List.mem_singleton.mp hb with rfl
      exact absurd rfl hne
    | cons y u => simp only [List.length_cons]; omega

/-! ## Claims -/

/-- C1, counterexample.  The claim says a subject with an absent
`collected_time` skips the temporal filter, so every reference with an equal
coordinate key qualifies and the subject is matched.  On this data set the
submitted subject has an unparseable time and the completed reference has the
identical coordinate key, yet the checker reports nothing: in pandas every
comparison against `NaT` is `False`, so the filter excludes everything. -/
theorem C1_counterexample :
    (prepare pt0 rowSubC1).timeNorm = none ∧
    (prepare pt0 rowSubC1).status = some "Phê duyệt".toList ∧
    (prepare pt0 rowRefC1).status = some "Hoàn thành".toList ∧
    (prepare pt0 rowRefC1).coordNorm = (prepare pt0 rowSubC1).coordNorm ∧
    (prepare pt0 rowRefC1).coordNorm ≠ none ∧
    check_duplicates pt0 dfC1 = .ok [] :=
  ⟨rfl, rfl, rfl, rfl, by decide, rfl⟩

/-- C1, amended.  For every subject whose `collected_time` is absent, the
temporal filter `time < NaT` is `False` for every candidate, so both
candidate sets are empty and the subject emits no result row: the temporal
filter degrades to "no match", not to "no filter". -/
theorem C1_absent_time_no_match (excludeSelf : Bool) (ref : List PRow)
    (row : PRow) (h : row.timeNorm = none) :
    addrCands excludeSelf ref row = [] ∧ coordCands excludeSelf ref row = [] ∧
    evalRow excludeSelf ref row = none := by
  have hlt : ∀ t, ltTime t row.timeNorm = false := by
    intro t; rw [h]; exact ltTime_none_right t
  have ha : addrCands excludeSelf ref row = [] := by
    unfold addrCands
    rw [List.filter_eq_nil_iff]
    intro r _
    simp [hlt r.timeNorm]
  have hco : coordCands excludeSelf ref row = [] := by
    unfold coordCands
    rcases hk : row.coordNorm with _ | k
    · rfl
    · rw [List.filter_eq_nil_iff]
      intro r _
      simp [hlt r.timeNorm]
  refine ⟨ha, hco, ?_⟩
  unfold evalRow
  simp [ha, hco, emitIf]

/-- C1 witness: the amended statement evaluated on the counterexample data:
the subject with the unparseable time has empty candidate sets and no output,
although a completed reference with the identical coordinate key is present. -/
theorem C1_witness :
    addrCands false [prepare pt0 rowRefC1] (prepare pt0 rowSubC1) = [] ∧
    coordCands false [prepare pt0 rowRefC1] (prepare pt0 rowSubC1) = [] ∧
    evalRow false [prepare pt0 rowRefC1] (prepare pt0 rowSubC1) = none :=
  C1_absent_time_no_match false [prepare pt0 rowRefC1] (prepare pt0 rowSubC1) rfl

/-- C3.  For a subject with a present `collected_time`, a reference candidate
whose parsed time is absent or not strictly earlier is excluded from both the
address-rule and the coordinate-rule candidate sets, in both comparison
modes, and therefore never contributes to `duplicate_ids`. -/
theorem C3_temporal_gate (excludeSelf : Bool) (ref : List PRow)
    (row cand : PRow) (t : Int) (ht : row.timeNorm = some t)
    (hc : cand.timeNorm = none ∨ ∃ u : Int, cand.timeNorm = some u ∧ t ≤ u) :
    cand ∉ addrCands excludeSelf ref row ∧
    cand ∉ coordCands excludeSelf ref row := by
  have hlt : ltTime cand.timeNorm row.timeNorm = false := by
    rw [ht]
    rcases hc with h1 | ⟨u, h1, h2⟩
    · rw [h1]; rfl
    · rw [h1]
      simp only [ltTime, decide_eq_false_iff_not]
      omega
  constructor
  · intro hmem
    have hp := (List.mem_filter.mp hmem).2
    simp [hlt] at hp
  · intro hmem
    unfold coordCands at hmem
    rcases hk : row.coordNorm with _ | k
    · rw [hk] at hmem; cases hmem
    · rw [hk] at hmem
      have hp := (List.mem_filter.mp hmem).2
      simp [hlt] at hp

/-- C3 witness: a candidate whose time `d2` is later than the subject's `d1`
is in neither candidate set, although it shares both keys. -/
theorem C3_witness :
    prepare pt0 rowSubC2 ∉
      addrCands false [prepare pt0 rowSubC2] (prepare pt0 rowRefC2) ∧
    prepare pt0 rowSubC2 ∉
      coordCands false [prepare pt0 rowSubC2] (prepare pt0 rowRefC2) :=
  C3_temporal_gate false [prepare pt0 rowSubC2] (prepare pt0 rowRefC2)
    (prepare pt0 rowSubC2) 1 rfl (Or.inr ⟨2, rfl, by omega⟩)

/-- C4, counterexample.  Address normalization is idempotent, but
`normalize_coord` is not idempotent on all of its own outputs: truncation to
8 characters can leave a trailing space, which a second application strips,
so re-normalizing `"1234567 ,0"` (itself an output) changes it. -/
theorem C4_counterexample :
    normalize_coord 8 (some "1234567 8,0".toList) = some "1234567 ,0".toList ∧
    normalize_coord 8 (some "1234567 ,0".toList) = some "1234567,0".toList ∧
    ("1234567,0".toList : Str) ≠ "1234567 ,0".toList :=
  ⟨rfl, rfl, by decide⟩

/-- C4, amended.  Applying the address-field normalization (trim plus case
fold) to an already-normalized value is a no-op; and `normalize_coord`
applied to one of its own outputs returns it unchanged provided both
truncated parts are strip-stable (truncation can leave a trailing space, in
which case a second application differs). -/
theorem C4_normalization_idempotent :
    (∀ s : Str, pyNorm (pyNorm s) = pyNorm s) ∧
    (∀ (v : Cell) (w : Str), normalize_coord 8 v = some w →
      coordTrimStable w = true → normalize_coord 8 (some w) = some w) := by
  constructor
  · exact pyNorm_pyNorm
  · intro v w h hst
    cases v with
    | none => cases h
    | some s =>
      simp only [normalize_coord] at h
      rcases hsp : splitComma s with _ | ⟨a, _ | ⟨b, _ | ⟨c, t⟩⟩⟩ <;>
        rw [hsp] at h
      · cases h
      · cases h
      · injection h with h1
        have hamem : a ∈ splitComma s := by rw [hsp]; exact List.mem_cons_self _ _
        have hbmem : b ∈ splitComma s := by
          rw [hsp]; exact List.mem_cons_of_mem _ (List.mem_cons_self _ _)
        have hca : ',' ∉ a := comma_not_mem_splitComma s a hamem
        have hcb : ',' ∉ b := comma_not_mem_splitComma s b hbmem
        have hlat : ',' ∉ (pyTrim a).take 8 :=
          fun hm => hca (mem_pyTrim (mem_take hm))
        have hlon : ',' ∉ (pyTrim b).take 8 :=
          fun hm => hcb (mem_pyTrim (mem_take hm))
        have hw : splitComma w = [(pyTrim a).take 8, (pyTrim b).take 8] := by
          rw [← h1, splitComma_append _ hlat, splitComma_no_comma hlon]
        unfold coordTrimStable at hst
        rw [hw] at hst
        simp only [List.all_cons, List.all_nil, Bool.and_true, Bool.and_eq_true,
          beq_iff_eq] at hst
        simp only [normalize_coord, hw]
        rw [hst.1, hst.2]
        rw [List.take_of_length_le (List.length_take_le 8 (pyTrim a)),
          List.take_of_length_le (List.length_take_le 8 (pyTrim b))]
        exact congrArg some h1
      · cases h

/-- C4 witness: the amended statement evaluated at a concrete already-
normalized string and a strip-stable coordinate. -/
theorem C4_witness :
    pyNorm (pyNorm "  AB c ".toList) = pyNorm "  AB c ".toList ∧
    normalize_coord 8 (some "12.5,107.3".toList) = some "12.5,107.3".toList :=
  ⟨C4_normalization_idempotent.1 ("  AB c ".toList),
   C4_normalization_idempotent.2 (some "12.5,107.3".toList) "12.5,107.3".toList
     rfl (by decide)⟩

/-- C5, counterexample.  Key equality does not imply address equivalence:
the delimiter `"||"` can be produced by bar characters inside field values,
so two records with different normalized fields share one key. -/
theorem C5_counterexample :
    build_addr_key rowCE1 = build_addr_key rowCE2 ∧
    normFields rowCE1 ≠ normFields rowCE2 :=
  ⟨rfl, by decide⟩

/-- C5, amended.  Equal normalized fields always give equal keys, and
conversely key equality implies field equality provided no normalized field
value contains the bar character (the delimiter is not reserved, so the
equivalence only holds on bar-free data). -/
theorem C5_addr_key_iff (r1 r2 : Row)
    (h1 : ∀ p ∈ normFields r1, '|' ∉ p) (h2 : ∀ p ∈ normFields r2, '|' ∉ p) :
    build_addr_key r1 = build_addr_key r2 ↔ normFields r1 = normFields r2 := by
  constructor
  · intro heq
    refine joinSep_barSep_inj _ _ ?_ h1 h2 heq
    simp [normFields]
  · intro heq
    unfold build_addr_key
    rw [heq]

/-- C5 witness: the amended equivalence evaluated on two concrete bar-free
records. -/
theorem C5_witness :
    build_addr_key rowRefC1 = build_addr_key rowSubC1 ↔
      normFields rowRefC1 = normFields rowSubC1 :=
  C5_addr_key_iff rowRefC1 rowSubC1 (by decide) (by decide)

/-- C6.  Whenever a required column is absent, each checker rejects the whole
data set with an error naming a missing required column, before any row is
processed; being an `error`, the run produces no result rows. -/
theorem C6_missing_column (pt : Cell → Option Int) (df : DataFrame) :
    (∀ col ∈ requiredCols, col ∉ df.cols →
      ∃ c, check_duplicates pt df = .error ("Thiếu cột: " ++ c) ∧
        c ∈ requiredCols ∧ c ∉ df.cols) ∧
    (∀ col ∈ requiredColsChungcu, col ∉ df.cols →
      ∃ c, check_duplicates_chungcu df = .error ("Thiếu cột: " ++ c) ∧
        c ∈ requiredColsChungcu ∧ c ∉ df.cols) := by
  constructor
  · intro col hin hout
    obtain ⟨c, hc⟩ := findMissing_isSome hin hout
    obtain ⟨hm1, hm2⟩ := findMissing_mem hc
    refine ⟨c, ?_, hm1, hm2⟩
    unfold check_duplicates
    rw [hc]
  · intro col hin hout
    obtain ⟨c, hc⟩ := findMissing_isSome hin hout
    obtain ⟨hm1, hm2⟩ := findMissing_mem hc
    refine ⟨c, ?_, hm1, hm2⟩
    unfold check_duplicates_chungcu
    rw [hc]

/-- C6 witness: a data set having only the `ID` column is rejected by both
checkers with an error naming a missing required column. -/
theorem C6_witness :
    (∃ c, check_duplicates pt0 dfMissing = .error ("Thiếu cột: " ++ c) ∧
      c ∈ requiredCols ∧ c ∉ dfMissing.cols) ∧
    (∃ c, check_duplicates_chungcu dfMissing = .error ("Thiếu cột: " ++ c) ∧
      c ∈ requiredColsChungcu ∧ c ∉ dfMissing.cols) :=
  ⟨(C6_missing_column pt0 dfMissing).1 "Tọa độ" (by decide) (by decide),
   (C6_missing_column pt0 dfMissing).2 "Người tạo" (by decide) (by decide)⟩

/-- C7.  `normalize_coord` is a total function that returns the absent
sentinel exactly when the raw value is missing or does not split into
exactly two comma-separated parts, so a malformed coordinate can never
abort the batch (unparseable timestamps are `none` by the `errors="coerce"`
model of the time parser). -/
theorem C7_parse_failures_absent (ml : Nat) (v : Cell) :
    normalize_coord ml v = none ↔
      (v = none ∨ ∃ s, v = some s ∧ (splitComma s).length ≠ 2) := by
  cases v with
  | none => simp [normalize_coord]
  | some s =>
    rcases hsp : splitComma s with _ | ⟨a, _ | ⟨b, _ | ⟨c, t⟩⟩⟩
    · exact absurd hsp (splitComma_ne_nil s)
    · simp [normalize_coord, hsp]
    · simp [normalize_coord, hsp]
    · simp [normalize_coord, hsp]

/-- C2.  In either comparison mode, a subject whose coordinate-candidate set
(after the temporal and self-exclusion filters) is non-empty emits a result
row whose severity label is Warning, regardless of creator identity: the
coordinate rule runs last and overwrites any Suspicion set by the address
rule, so coordinate dominates whenever both rules apply. -/
theorem C2_coord_dominates (pt : Cell → Option Int) (df : DataFrame)
    (rows : List ResultRow) (hok : check_duplicates pt df = .ok rows)
    (excludeSelf : Bool) (row : PRow)
    (hrow : row ∈ (if excludeSelf then hoanThanhOf pt df else pheDuyetOf pt df))
    (hc : coordCands excludeSelf (hoanThanhOf pt df) row ≠ []) :
    ∃ res ∈ rows, res.id = row.id ∧ res.creator = row.creatorNorm ∧
      ∃ d, res.reason = mkReason warnLabel d := by
  obtain ⟨res, heval, hid, hcreator, d, hreason⟩ := evalRow_coord hc
  refine ⟨res, ?_, hid, hcreator, d, hreason⟩
  rw [check_duplicates_ok hok, List.mem_append]
  cases excludeSelf with
  | false =>
    left
    exact List.mem_filterMap.mpr ⟨row, by simpa using hrow, heval⟩
  | true =>
    right
    exact List.mem_filterMap.mpr ⟨row, by simpa using hrow, heval⟩

/-- C2 witness: the submitted subject of `dfC2` matches the completed
reference both by coordinate and by address with a different creator, and
the emitted row carries the Warning label. -/
theorem C2_witness :
    ∃ res ∈ rowsC2, res.id = (prepare pt0 rowSubC2).id ∧
      res.creator = (prepare pt0 rowSubC2).creatorNorm ∧
      ∃ d, res.reason = mkReason warnLabel d :=
  C2_coord_dominates pt0 dfC2 rowsC2 rfl false (prepare pt0 rowSubC2)
    (by decide) (by decide)

/-- C8.  Both evaluators are pure functions of their input (running them
twice gives syntactically the same computation), and every emitted row's
duplicate-id and duplicate-creator cells are a semicolon join of a sorted
duplicate-free list. -/
theorem C8_deterministic_sorted (pt : Cell → Option Int) (df : DataFrame)
    (rows : List ResultRow) (res : ResultRow)
    (h : check_duplicates pt df = .ok rows ∨
         check_duplicates_chungcu df = .ok rows)
    (hres : res ∈ rows) :
    check_duplicates pt df = check_duplicates pt df ∧
    check_duplicates_chungcu df = check_duplicates_chungcu df ∧
    (∃ l, List.Sorted (fun a b : Str => a ≤ b) l ∧ l.Nodup ∧
      res.dupIds = joinSemi l) ∧
    (∃ l, List.Sorted (fun a b : Str => a ≤ b) l ∧ l.Nodup ∧
      res.dupCreators = joinSemi l) := by
  suffices hs : ∃ ids crs, res.dupIds = joinSemi (sortDedup ids) ∧
      res.dupCreators = joinSemi (sortDedup crs) by
    obtain ⟨ids, crs, e1, e2⟩ := hs
    exact ⟨rfl, rfl,
      ⟨sortDedup ids, sortDedup_sorted ids, sortDedup_nodup ids, e1⟩,
      ⟨sortDedup crs, sortDedup_sorted crs, sortDedup_nodup crs, e2⟩⟩
  rcases h with hok | hok
  · rw [check_duplicates_ok hok] at hres
    rcases List.mem_append.mp hres with hm | hm
    all_goals
      obtain ⟨a, _, heval⟩ := List.mem_filterMap.mp hm
      obtain ⟨ids, crs, hc2, ha2, sev, det, hshape⟩ := evalRow_shape heval
      exact ⟨ids, crs, by rw [hshape]; rfl, by rw [hshape]; rfl⟩
  · rw [check_duplicates_chungcu_ok hok] at hres
    obtain ⟨k, _, hmem2⟩ := List.mem_flatMap.mp hres
    have hmem3 : res ∈
        (if ((validChungcu df).filter (fun r => r.key == k)).length ≤ 1
          then ([] : List ResultRow)
          else ((validChungcu df).filter (fun r => r.key == k)).filterMap
            (chungcuRowResult ((validChungcu df).filter (fun r => r.key == k)))) :=
      hmem2
    split at hmem3
    · cases hmem3
    · obtain ⟨cr, _, heval⟩ := List.mem_filterMap.mp hmem3
      obtain ⟨_, _, e1, e2, _, _⟩ := chungcuRowResult_some heval
      exact ⟨_, _, e1, e2⟩

/-- C8 witness: the theorem evaluated on the emitted row of `dfC2`. -/
theorem C8_witness :
    check_duplicates pt0 dfC2 = check_duplicates pt0 dfC2 ∧
    check_duplicates_chungcu dfC2 = check_duplicates_chungcu dfC2 ∧
    (∃ l, List.Sorted (fun a b : Str => a ≤ b) l ∧ l.Nodup ∧
      resC2.dupIds = joinSemi l) ∧
    (∃ l, List.Sorted (fun a b : Str => a ≤ b) l ∧ l.Nodup ∧
      resC2.dupCreators = joinSemi l) :=
  C8_deterministic_sorted pt0 dfC2 rowsC2 resC2 (Or.inl rfl) (by decide)

/-- C9.  In the apartment variant, any two valid records with distinct `ID`s
sharing the 3-field key are mutually flagged with no coordinate rule and no
temporal filter: each emits a row listing the other's id among its
duplicates, with severity Warning exactly when some other same-key record
has the same (stripped) creator and Suspicion when all same-key others have
different creators. -/
theorem C9_chungcu_mutual (df : DataFrame) (rows : List ResultRow)
    (hok : check_duplicates_chungcu df = .ok rows)
    (a b : CRow) (ha : a ∈ validChungcu df) (hb : b ∈ validChungcu df)
    (hne : a.id ≠ b.id) (hkey : a.key = b.key) :
    ∃ res ∈ rows, res.id = a.id ∧ res.creator = a.creatorNorm ∧
      (∃ l, res.dupIds = joinSemi l ∧ b.id ∈ l) ∧
      ((∃ r ∈ validChungcu df, r.key = a.key ∧ r.id ≠ a.id ∧
          r.creatorNorm = a.creatorNorm) →
        res.reason = warnLabel ++ (" – ".toList ++ msgCCsame)) ∧
      ((¬ ∃ r ∈ validChungcu df, r.key = a.key ∧ r.id ≠ a.id ∧
          r.creatorNorm = a.creatorNorm) →
        res.reason = suspLabel ++ (" – ".toList ++ msgCCdiff)) := by
  have hkmem : a.key ∈ firstDedup ((validChungcu df).map (fun r => r.key)) :=
    mem_firstDedup.mpr (List.mem_map.mpr ⟨a, ha, rfl⟩)
  have hag : a ∈ (validChungcu df).filter (fun r => r.key == a.key) :=
    List.mem_filter.mpr ⟨ha, by simp⟩
  have hbg : b ∈ (validChungcu df).filter (fun r => r.key == a.key) :=
    List.mem_filter.mpr ⟨hb, by simp [hkey]⟩
  have hgl : ¬ ((validChungcu df).filter (fun r => r.key == a.key)).length ≤ 1 := by
    have h2 := two_le_length_of_mem hag hbg
      (fun he => hne (congrArg CRow.id he))
    omega
  have hbo : b ∈ ((validChungcu df).filter (fun r => r.key == a.key)).filter
      (fun x => x.id != a.id) :=
    List.mem_filter.mpr ⟨hbg, by
      simp only [bne_iff_ne, ne_eq, decide_eq_true_eq]
      exact fun he => hne he.symm⟩
  have hothers : ((validChungcu df).filter (fun r => r.key == a.key)).filter
      (fun x => x.id != a.id) ≠ [] := List.ne_nil_of_mem hbo
  obtain ⟨res, hres⟩ := chungcuRowResult_isSome hothers
  obtain ⟨hid, hcr, hdups, _, hwarn, hsusp⟩ := chungcuRowResult_some hres
  have hiff : ((((validChungcu df).filter (fun r => r.key == a.key)).filter
      (fun x => x.id != a.id)).filter
      (fun x => x.creatorNorm == a.creatorNorm) ≠ []) ↔
      (∃ r ∈ validChungcu df, r.key = a.key ∧ r.id ≠ a.id ∧
        r.creatorNorm = a.creatorNorm) := by
    constructor
    · intro hne2
      obtain ⟨r, hr⟩ := List.exists_mem_of_ne_nil _ hne2
      have h3 := List.mem_filter.mp hr
      have h2 := List.mem_filter.mp h3.1
      have h1 := List.mem_filter.mp h2.1
      refine ⟨r, h1.1, ?_, ?_, ?_⟩
      · simpa using h1.2
      · have := h2.2
        simp only [bne_iff_ne, ne_eq, decide_eq_true_eq] at this
        exact this
      · simpa using h3.2
    · rintro ⟨r, hrv, hrk, hri, hrc⟩
      refine List.ne_nil_of_mem (List.mem_filter.mpr
        ⟨List.mem_filter.mpr ⟨List.mem_filter.mpr ⟨hrv, by simp [hrk]⟩, ?_⟩,
         by simp [hrc]⟩)
      simp only [bne_iff_ne, ne_eq, decide_eq_true_eq]
      exact hri
  refine ⟨res, ?_, hid, hcr, ?_, ?_, ?_⟩
  · rw [check_duplicates_chungcu_ok hok]
    refine List.mem_flatMap.mpr ⟨a.key, hkmem, ?_⟩
    show res ∈
      (if ((validChungcu df).filter (fun r => r.key == a.key)).length ≤ 1
        then ([] : List ResultRow)
        else ((validChungcu df).filter (fun r => r.key == a.key)).filterMap
          (chungcuRowResult ((validChungcu df).filter (fun r => r.key == a.key))))
    rw [if_neg hgl]
    exact List.mem_filterMap.mpr ⟨a, hag, hres⟩
  · refine ⟨sortDedup ((((validChungcu df).filter (fun r => r.key == a.key)).filter
      (fun x => x.id != a.id)).map (fun x => x.id)), hdups, ?_⟩
    exact mem_sortDedup.mpr (List.mem_map.mpr ⟨b, hbo, rfl⟩)
  · intro hex
    exact hwarn (hiff.mpr hex)
  · intro hnex
    rcases eq_or_ne ((((validChungcu df).filter (fun r => r.key == a.key)).filter
        (fun x => x.id != a.id)).filter
        (fun x => x.creatorNorm == a.creatorNorm)) [] with he | hne2
    · exact hsusp he
    · exact absurd (hiff.mp hne2) hnex

/-- C9 witness: the theorem evaluated on `dfC9` for the key-sharing records
`X1` and `X2`. -/
theorem C9_witness :
    ∃ res ∈ rowsC9, res.id = (prepareChungcu aptX1).id ∧
      res.creator = (prepareChungcu aptX1).creatorNorm ∧
      (∃ l, res.dupIds = joinSemi l ∧ (prepareChungcu aptX2).id ∈ l) ∧
      ((∃ r ∈ validChungcu dfC9, r.key = (prepareChungcu aptX1).key ∧
          r.id ≠ (prepareChungcu aptX1).id ∧
          r.creatorNorm = (prepareChungcu aptX1).creatorNorm) →
        res.reason = warnLabel ++ (" – ".toList ++ msgCCsame)) ∧
      ((¬ ∃ r ∈ validChungcu dfC9, r.key = (prepareChungcu aptX1).key ∧
          r.id ≠ (prepareChungcu aptX1).id ∧
          r.creatorNorm = (prepareChungcu aptX1).creatorNorm) →
        res.reason = suspLabel ++ (" – ".toList ++ msgCCdiff)) :=
  C9_chungcu_mutual dfC9 rowsC9 rfl (prepareChungcu aptX1) (prepareChungcu aptX2)
    (by decide) (by decide) (by decide) (by decide)

/-- C10.  A record whose three apartment key fields are all blank after
trimming fails the blank-key mask, so it is excluded before grouping: every
emitted row's subject is a mask-surviving record, every id listed in a
`duplicate_ids` cell belongs to a mask-surviving record, and every creator
listed in a `duplicate_creators` cell belongs to a mask-surviving record, so
an all-blank record never produces a row and never appears in another
record's duplicate ids or duplicate creators, no matter how many all-blank
records coexist. -/
theorem C10_blank_key_excluded (df : DataFrame) (rows : List ResultRow)
    (hok : check_duplicates_chungcu df = .ok rows) :
    (∀ r : Row, (∀ c ∈ CHUNGCU_COLS, pyTrim (getStr r c) = []) →
      chungcuValid (prepareChungcu r) = false) ∧
    (∀ res ∈ rows, ∃ cr ∈ validChungcu df, res.id = cr.id) ∧
    (∀ res ∈ rows, ∃ l, res.dupIds = joinSemi l ∧
      ∀ x ∈ l, ∃ cr ∈ validChungcu df, cr.id = x) ∧
    (∀ res ∈ rows, ∃ l, res.dupCreators = joinSemi l ∧
      ∀ x ∈ l, ∃ cr ∈ validChungcu df, cr.creatorNorm = x) := by
  refine ⟨?_, ?_, ?_, ?_⟩
  · intro r hr
    have e1 := hr "Tỉnh/Thành phố" (by simp [CHUNGCU_COLS])
    have e2 := hr "Dự án/Khu đô thị/Khu phân lô" (by simp [CHUNGCU_COLS])
    have e3 := hr "Địa chỉ căn hộ/sàn" (by simp [CHUNGCU_COLS])
    have hkey : (prepareChungcu r).key = '|' :: '|' :: '|' :: '|' :: [] := by
      show build_chungcu_key r = _
      unfold build_chungcu_key normFieldsChungcu CHUNGCU_COLS
      simp only [List.map_cons, List.map_nil, pyNorm, e1, e2, e3]
      rfl
    unfold chungcuValid
    rw [hkey]
    rfl
  · intro res hres
    rw [check_duplicates_chungcu_ok hok] at hres
    obtain ⟨k, _, hmem2⟩ := List.mem_flatMap.mp hres
    have hmem3 : res ∈
        (if ((validChungcu df).filter (fun r => r.key == k)).length ≤ 1
          then ([] : List ResultRow)
          else ((validChungcu df).filter (fun r => r.key == k)).filterMap
            (chungcuRowResult ((validChungcu df).filter (fun r => r.key == k)))) :=
      hmem2
    split at hmem3
    · cases hmem3
    · obtain ⟨cr, hcr, heval⟩ := List.mem_filterMap.mp hmem3
      exact ⟨cr, List.mem_of_mem_filter hcr, (chungcuRowResult_some heval).1⟩
  · intro res hres
    rw [check_duplicates_chungcu_ok hok] at hres
    obtain ⟨k, _, hmem2⟩ := List.mem_flatMap.mp hres
    have hmem3 : res ∈
        (if ((validChungcu df).filter (fun r => r.key == k)).length ≤ 1
          then ([] : List ResultRow)
          else ((validChungcu df).filter (fun r => r.key == k)).filterMap
            (chungcuRowResult ((validChungcu df).filter (fun r => r.key == k)))) :=
      hmem2
    split at hmem3
    · cases hmem3
    · obtain ⟨cr, _, heval⟩ := List.mem_filterMap.mp hmem3
      obtain ⟨_, _, e1, _, _, _⟩ := chungcuRowResult_some heval
      refine ⟨_, e1, ?_⟩
      intro x hx
      obtain ⟨o, ho, rfl⟩ := List.mem_map.mp (mem_sortDedup.mp hx)
      exact ⟨o, List.mem_of_mem_filter (List.mem_of_mem_filter ho), rfl⟩
  · intro res hres
    rw [check_duplicates_chungcu_ok hok] at hres
    obtain ⟨k, _, hmem2⟩ := List.mem_flatMap.mp hres
    have hmem3 : res ∈
        (if ((validChungcu df).filter (fun r => r.key == k)).length ≤ 1
          then ([] : List ResultRow)
          else ((validChungcu df).filter (fun r => r.key == k)).filterMap
            (chungcuRowResult ((validChungcu df).filter (fun r => r.key == k)))) :=
      hmem2
    split at hmem3
    · cases hmem3
    · obtain ⟨cr, _, heval⟩ := List.mem_filterMap.mp hmem3
      obtain ⟨_, _, _, e2, _, _⟩ := chungcuRowResult_some heval
      refine ⟨_, e2, ?_⟩
      intro x hx
      obtain ⟨o, ho, rfl⟩ := List.mem_map.mp (mem_sortDedup.mp hx)
      exact ⟨o, List.mem_of_mem_filter (List.mem_of_mem_filter ho), rfl⟩

/-- C10 witness: the theorem evaluated on `dfC9`, whose input contains an
all-blank-key record alongside a genuine duplicate group. -/
theorem C10_witness :
    (∀ r : Row, (∀ c ∈ CHUNGCU_COLS, pyTrim (getStr r c) = []) →
      chungcuValid (prepareChungcu r) = false) ∧
    (∀ res ∈ rowsC9, ∃ cr ∈ validChungcu dfC9, res.id = cr.id) ∧
    (∀ res ∈ rowsC9, ∃ l, res.dupIds = joinSemi l ∧
      ∀ x ∈ l, ∃ cr ∈ validChungcu dfC9, cr.id = x) ∧
    (∀ res ∈ rowsC9, ∃ l, res.dupCreators = joinSemi l ∧
      ∀ x ∈ l, ∃ cr ∈ validChungcu dfC9, cr.creatorNorm = x) :=
  C10_blank_key_excluded dfC9 rowsC9 rfl
